import Mathlib

/-!
# Verification of the Apocalypse-Run core subsystems

A shallow embedding, over the rationals, of the core subsystems of the
Apocalypse-Run maze game:

* the power simulation (`PowerManager` in `src/unnamed/part_010`),
* the flashlight component that drives it (`Flashlight` in
  `src/src/core/SFXGenerator.ts`, wired up in `src/src/core/Game.ts`),
* lootbox placement and rarity assignment (`LootboxManager` in
  `src/src/core/LootboxManager.ts`),
* maze spawn/exit selection and the corridor-start search
  (`MazeGenerator` in `src/src/core/MazeGenerator.ts`).

Modelling conventions:

* JavaScript `number` arithmetic is modelled exactly over `ℚ`; the decimal
  literals of the source (`33.33`, `0.25`, ...) become the corresponding
  rationals (`3333/100`, `1/4`, ...).
* `THREE.Vector3` becomes `Vec3` with rational components.
  `Vector3.distanceTo p q` is `Real.sqrt (sqDist p q)`.  Everywhere the
  source only *compares* a distance against a nonnegative constant `m`
  (`d < m`, `d ≤ m`, `d ≥ m`), the model uses the equivalent decidable
  comparison of `sqDist` against `m^2`; theorems that talk about Euclidean
  distances state them with `Real.sqrt` and use that equivalence.
* `Math.random()` draws, `Math.sin`, and `Date.now()` are modelled as
  oracle inputs (explicit function/stream parameters), so every theorem
  quantifies over all possible draws.
* JavaScript `Map` iteration order is insertion order; a `Map` keyed by id
  is modelled as a `List` with overwrite-by-id insertion.
-/

namespace ApocalypseRun

/-- A `THREE.Vector3` with exact rational components. -/
structure Vec3 where
  x : ℚ
  y : ℚ
  z : ℚ
deriving DecidableEq, Repr, Inhabited

/-- Squared Euclidean distance between two points.
`THREE.Vector3.distanceTo` is `Real.sqrt` of this. -/
def sqDist (p q : Vec3) : ℚ :=
  (p.x - q.x) ^ 2 + (p.y - q.y) ^ 2 + (p.z - q.z) ^ 2

theorem sqDist_nonneg (p q : Vec3) : 0 ≤ sqDist p q := by
  have hx := sq_nonneg (p.x - q.x)
  have hy := sq_nonneg (p.y - q.y)
  have hz := sq_nonneg (p.z - q.z)
  unfold sqDist; linarith

theorem sqDist_comm (p q : Vec3) : sqDist p q = sqDist q p := by
  unfold sqDist; ring

/-- Lootbox rarity tiers (`'common' | 'rare' | 'epic' | 'legendary'`). -/
inductive Rarity where
  | common
  | rare
  | epic
  | legendary
deriving DecidableEq, Repr

/-- Light types accepted by `PowerManager.registerLight`. -/
inductive LightType where
  | ambient
  | point
  | spot
  | directional
  | flashlight
deriving DecidableEq, Repr

/-- `PowerManager.consumptionRates` (part_010 lines 27-33). -/
def consumptionRates : LightType → ℚ
  | .ambient => 1/4
  | .point => 1
  | .spot => 3/2
  | .directional => 1/2
  | .flashlight => 5

/-- `PowerManager.flashlightConsumptionRates` (part_010 lines 36-42):
levels 1-5 have a rate; any other index is `undefined` in JS, hence `none`. -/
def flashlightConsumptionRates : ℕ → Option ℚ
  | 1 => some 5
  | 2 => some 20
  | 3 => some (3333/100)
  | 4 => some 30
  | 5 => some 60
  | _ => none

/-- `PowerManager.chargeValues` (part_010 lines 45-50). -/
def chargeValues : Rarity → ℚ
  | .common => 180
  | .rare => 360
  | .epic => 720
  | .legendary => 1080

/-- A `PowerConsumer` record (part_010 lines 3-9).  `intensity` models the
referenced `light.intensity` (the light object is shared with the rest of
the game; the power manager reads and writes exactly this field of it). -/
structure PowerConsumer where
  id : String
  intensity : ℚ
  baseIntensity : ℚ
  consumptionRate : ℚ
  priority : ℚ
deriving DecidableEq, Repr

/-- The `PowerManager` state (part_010 lines 18-24).  `consumers` models the
`Map<string, PowerConsumer>` as an insertion-ordered list with unique ids. -/
structure PowerManager where
  currentPower : ℚ
  maxPower : ℚ
  isLowPower : Bool
  consumers : List PowerConsumer
deriving DecidableEq, Repr

/-- The constructor (part_010 lines 52-56): `current = max = initialPower`. -/
def PowerManager.init (initialPower : ℚ) : PowerManager :=
  ⟨initialPower, initialPower, false, []⟩

/-- `Map.set` semantics: overwrite the entry with the same id in place,
otherwise append at the end. -/
def setConsumer : List PowerConsumer → PowerConsumer → List PowerConsumer
  | [], c => [c]
  | c' :: rest, c => if c'.id = c.id then c :: rest else c' :: setConsumer rest c

/-- `PowerManager.registerLight` (part_010 lines 58-74): the consumer's
`baseIntensity` is the light's intensity at registration time and the rate
comes from the `consumptionRates` table. -/
def PowerManager.registerLight (pm : PowerManager) (id : String) (lightIntensity : ℚ)
    (lightType : LightType) (priority : ℚ) : PowerManager :=
  let consumer : PowerConsumer :=
    ⟨id, lightIntensity, lightIntensity, consumptionRates lightType, priority⟩
  { pm with consumers := setConsumer pm.consumers consumer }

/-- `PowerManager.updateFlashlightConsumption` (part_010 lines 76-88):
level 0 forces the rate to 0; levels 1-5 load the table rate; any other
level leaves the consumer unchanged (the JS truthiness guard
`this.flashlightConsumptionRates[level]`, never 0 in the table). -/
def PowerManager.updateFlashlightConsumption (pm : PowerManager) (flashlightId : String)
    (level : ℕ) : PowerManager :=
  { pm with consumers := pm.consumers.map fun c =>
      if c.id = flashlightId then
        if level = 0 then { c with consumptionRate := 0 }
        else
          match flashlightConsumptionRates level with
          | some r => { c with consumptionRate := r }
          | none => c
      else c }

/-- `PowerManager.unregisterLight` (part_010 lines 90-95). -/
def PowerManager.unregisterLight (pm : PowerManager) (id : String) : PowerManager :=
  { pm with consumers := pm.consumers.filter fun c => c.id != id }

/-- The per-consumer "active" test inside `calculateTotalConsumption`
(part_010 lines 124-132): the flashlight consumes iff its rate is positive,
every other light iff its intensity exceeds 0.001. -/
def shouldConsume (c : PowerConsumer) : Bool :=
  if c.id = "flashlight" then decide (0 < c.consumptionRate)
  else decide (1/1000 < c.intensity)

/-- `PowerManager.calculateTotalConsumption` (part_010 lines 119-149). -/
def calculateTotalConsumption (consumers : List PowerConsumer) : ℚ :=
  (consumers.map fun c => if shouldConsume c then c.consumptionRate else 0).sum

/-- `PowerManager.updatePowerState` (part_010 lines 151-163). -/
def PowerManager.updatePowerState (pm : PowerManager) : PowerManager :=
  { pm with isLowPower := decide (pm.currentPower / pm.maxPower * 100 ≤ 40) }

/-- Oracles for the ambient quantities used by `applyPowerEffects`:
`sin` models `Math.sin`, `rand i` the i-th `Math.random()` draw of the tick,
`time` models `Date.now() * 0.001`. -/
structure Env where
  sin : ℚ → ℚ
  rand : ℕ → ℚ
  time : ℚ

/-- The new intensity `applyPowerEffects` assigns to one consumer
(part_010 lines 165-211), given the power percentage `pct` and the
consumer's index `i` (used to address its `Math.random()` draw).  The
flashlight is only overridden for low-power effects and only if already on;
other lights are always driven. -/
def effectIntensity (env : Env) (pct : ℚ) (i : ℕ) (c : PowerConsumer) : ℚ :=
  if c.id = "flashlight" then
    if pct ≤ 0 then 0
    else if pct ≤ 20 then
      if 1/1000 < c.intensity then
        c.baseIntensity * (env.sin (env.time * 10 + c.priority) * (3/10) + 7/10) * (3/10)
      else c.intensity
    else if pct ≤ 40 then
      if 1/1000 < c.intensity then c.baseIntensity * (pct / 40)
      else c.intensity
    else c.intensity
  else
    if pct ≤ 0 then 0
    else if pct ≤ 20 then
      if env.rand i < 3/10 + c.priority * (1/10) then
        c.baseIntensity * (env.sin (env.time * 10 + c.priority) * (3/10) + 7/10) * (3/10)
      else 0
    else if pct ≤ 40 then
      c.baseIntensity * (pct / 40) * (env.sin (env.time * 2 + c.priority) * (1/10) + 9/10)
    else c.baseIntensity

/-- Apply `effectIntensity` to each consumer, threading the index. -/
def applyEffectsList (env : Env) (pct : ℚ) : ℕ → List PowerConsumer → List PowerConsumer
  | _, [] => []
  | i, c :: rest =>
    { c with intensity := effectIntensity env pct i c } :: applyEffectsList env pct (i + 1) rest

/-- `PowerManager.applyPowerEffects` (part_010 lines 165-211). -/
def applyPowerEffects (env : Env) (pm : PowerManager) : PowerManager :=
  { pm with consumers := applyEffectsList env (pm.currentPower / pm.maxPower * 100) 0 pm.consumers }

/-- `PowerManager.update` (part_010 lines 97-117): early return with no
consumers; otherwise drain `total × dt` clamped at 0, recompute the
low-power flag, then apply the visual effects. -/
def PowerManager.update (env : Env) (pm : PowerManager) (deltaTime : ℚ) : PowerManager :=
  if pm.consumers.isEmpty then pm
  else
    let totalConsumption := calculateTotalConsumption pm.consumers
    let pm1 : PowerManager :=
      { pm with currentPower := max 0 (pm.currentPower - totalConsumption * deltaTime) }
    applyPowerEffects env pm1.updatePowerState

/-- The synchronous part of `createPowerGainEffect` (part_010 lines 228-256):
every consumer's intensity is boosted to `min (base × 1.5) (intensity × 2)`.
The 500 ms fade-back runs on later animation frames and never touches the
power scalar, so it is outside the synchronous call being modelled. -/
def createPowerGainEffect (pm : PowerManager) : PowerManager :=
  { pm with consumers := pm.consumers.map fun c =>
      { c with intensity := min (c.baseIntensity * (3/2)) (c.intensity * 2) } }

/-- `PowerManager.addCharge` (part_010 lines 213-226): clamp at `maxPower`,
return the actual delta. -/
def PowerManager.addCharge (pm : PowerManager) (rarity : Rarity) : ℚ × PowerManager :=
  let chargeAmount := chargeValues rarity
  let oldPower := pm.currentPower
  let newPower := min pm.maxPower (pm.currentPower + chargeAmount)
  (newPower - oldPower, createPowerGainEffect { pm with currentPower := newPower })

/-- One externally visible operation on the power manager. -/
inductive PowerOp where
  | update (env : Env) (dt : ℚ)
  | addCharge (rarity : Rarity)
  | registerLight (id : String) (lightIntensity : ℚ) (lightType : LightType) (priority : ℚ)
  | updateFlashlightConsumption (id : String) (level : ℕ)
  | unregisterLight (id : String)

/-- The side condition the spec puts on an operation: update steps use a
nonnegative time delta. -/
def PowerOp.dtNonneg : PowerOp → Prop
  | .update _ dt => 0 ≤ dt
  | _ => True

def runOp (pm : PowerManager) : PowerOp → PowerManager
  | .update env dt => pm.update env dt
  | .addCharge r => (pm.addCharge r).2
  | .registerLight id i lt p => pm.registerLight id i lt p
  | .updateFlashlightConsumption id lv => pm.updateFlashlightConsumption id lv
  | .unregisterLight id => pm.unregisterLight id

def runOps (pm : PowerManager) (ops : List PowerOp) : PowerManager :=
  ops.foldl runOp pm

/-- All stored consumption rates are nonnegative.  Established by every way
the code writes a rate: the `consumptionRates` table, the
`flashlightConsumptionRates` table, and the explicit 0. -/
def RatesNonneg (pm : PowerManager) : Prop :=
  ∀ c ∈ pm.consumers, 0 ≤ c.consumptionRate

/-- The pool invariant together with the rate invariant that sustains it. -/
def PowerInv (pm : PowerManager) : Prop :=
  0 ≤ pm.currentPower ∧ pm.currentPower ≤ pm.maxPower ∧ RatesNonneg pm

theorem consumptionRates_nonneg (t : LightType) : 0 ≤ consumptionRates t := by
  cases t <;> norm_num [consumptionRates]

theorem flashlightConsumptionRates_nonneg (n : ℕ) (r : ℚ)
    (h : flashlightConsumptionRates n = some r) : 0 ≤ r := by
  match n, h with
  | 1, h => injection h with h; rw [← h]; norm_num
  | 2, h => injection h with h; rw [← h]; norm_num
  | 3, h => injection h with h; rw [← h]; norm_num
  | 4, h => injection h with h; rw [← h]; norm_num
  | 5, h => injection h with h; rw [← h]; norm_num

theorem chargeValues_nonneg (r : Rarity) : 0 ≤ chargeValues r := by
  cases r <;> norm_num [chargeValues]

theorem calculateTotalConsumption_nonneg (consumers : List PowerConsumer)
    (h : ∀ c ∈ consumers, 0 ≤ c.consumptionRate) :
    0 ≤ calculateTotalConsumption consumers := by
  refine List.sum_nonneg ?_
  intro q hq
  rcases List.mem_map.1 hq with ⟨c, hc, rfl⟩
  show 0 ≤ if shouldConsume c then c.consumptionRate else 0
  split
  · exact h c hc
  · exact le_refl 0

theorem mem_setConsumer (l : List PowerConsumer) (c x : PowerConsumer)
    (hx : x ∈ setConsumer l c) : x ∈ l ∨ x = c := by
  induction l with
  | nil => simpa [setConsumer] using hx
  | cons c' rest ih =>
    unfold setConsumer at hx
    split at hx
    · rcases List.mem_cons.1 hx with h | h
      · exact Or.inr h
      · exact Or.inl (List.mem_cons_of_mem _ h)
    · rcases List.mem_cons.1 hx with h | h
      · exact Or.inl (h ▸ List.mem_cons_self _ _)
      · rcases ih h with h | h
        · exact Or.inl (List.mem_cons_of_mem _ h)
        · exact Or.inr h

theorem RatesNonneg_applyEffects (env : Env) (pct : ℚ) :
    ∀ (i : ℕ) (l : List PowerConsumer), (∀ c ∈ l, 0 ≤ c.consumptionRate) →
      ∀ x ∈ applyEffectsList env pct i l, 0 ≤ x.consumptionRate
  | _, [], _, x, hx => by simp [applyEffectsList] at hx
  | i, c :: rest, h, x, hx => by
    unfold applyEffectsList at hx
    rcases List.mem_cons.1 hx with rfl | hx
    · exact h c (List.mem_cons_self _ _)
    · exact RatesNonneg_applyEffects env pct (i + 1) rest
        (fun c' hc' => h c' (List.mem_cons_of_mem _ hc')) x hx

theorem runOp_inv (pm : PowerManager) (op : PowerOp) (hinv : PowerInv pm)
    (hdt : op.dtNonneg) : PowerInv (runOp pm op) := by
  obtain ⟨h0, hmax, hrates⟩ := hinv
  have hmax0 : 0 ≤ pm.maxPower := le_trans h0 hmax
  cases op with
  | update env dt =>
    have hdt' : 0 ≤ dt := hdt
    show PowerInv (pm.update env dt)
    unfold PowerManager.update
    split
    · exact ⟨h0, hmax, hrates⟩
    · have htot : 0 ≤ calculateTotalConsumption pm.consumers :=
        calculateTotalConsumption_nonneg _ hrates
      refine ⟨le_max_left 0 _, ?_, ?_⟩
      · show max 0 (pm.currentPower - calculateTotalConsumption pm.consumers * dt) ≤ pm.maxPower
        refine max_le hmax0 ?_
        have : 0 ≤ calculateTotalConsumption pm.consumers * dt := mul_nonneg htot hdt'
        linarith
      · intro x hx
        exact RatesNonneg_applyEffects env _ 0 pm.consumers hrates x hx
  | addCharge r =>
    refine ⟨?_, ?_, ?_⟩
    · exact le_min hmax0 (add_nonneg h0 (chargeValues_nonneg r))
    · exact min_le_left _ _
    · intro x hx
      rcases List.mem_map.1 hx with ⟨c, hc, rfl⟩
      exact hrates c hc
  | registerLight id i lt p =>
    refine ⟨h0, hmax, ?_⟩
    intro x hx
    rcases mem_setConsumer _ _ _ hx with h | rfl
    · exact hrates x h
    · exact consumptionRates_nonneg lt
  | updateFlashlightConsumption id lv =>
    refine ⟨h0, hmax, ?_⟩
    intro x hx
    rcases List.mem_map.1 hx with ⟨c, hc, rfl⟩
    show 0 ≤ (if c.id = id then
        if lv = 0 then { c with consumptionRate := 0 }
        else
          match flashlightConsumptionRates lv with
          | some r => { c with consumptionRate := r }
          | none => c
      else c).consumptionRate
    split
    · split
      · exact le_refl 0
      · split
        · next r hr => exact flashlightConsumptionRates_nonneg lv r hr
        · exact hrates c hc
    · exact hrates c hc
  | unregisterLight id =>
    refine ⟨h0, hmax, ?_⟩
    intro x hx
    exact hrates x (List.mem_of_mem_filter hx)

theorem runOps_inv (pm : PowerManager) (ops : List PowerOp) (hinv : PowerInv pm)
    (h : ∀ op ∈ ops, op.dtNonneg) : PowerInv (runOps pm ops) := by
  induction ops generalizing pm with
  | nil => exact hinv
  | cons op rest ih =>
    exact ih (runOp pm op) (runOp_inv pm op hinv (h op (List.mem_cons_self _ _)))
      (fun o ho => h o (List.mem_cons_of_mem _ ho))

/-- **C1.** After any sequence of `update(dt)` calls with `dt ≥ 0`,
`addCharge(rarity)` calls (and any interleaved consumer
registration/rate-change/removal), starting from the constructor state with
the default 6000-unit pool, the power pool satisfies
`0 ≤ currentPower ≤ maxPower`: time-based drain clamps at 0
(`Math.max(0, ...)`) and charge-add clamps at `maxPower`
(`Math.min(maxPower, ...)`), with overflow silently discarded. -/
theorem powerPool_invariant (ops : List PowerOp) (h : ∀ op ∈ ops, op.dtNonneg) :
    0 ≤ (runOps (PowerManager.init 6000) ops).currentPower ∧
      (runOps (PowerManager.init 6000) ops).currentPower ≤
        (runOps (PowerManager.init 6000) ops).maxPower := by
  have hinit : PowerInv (PowerManager.init 6000) := by
    refine ⟨by norm_num [PowerManager.init], le_refl _, ?_⟩
    intro c hc
    simp [PowerManager.init] at hc
  have hinv := runOps_inv (PowerManager.init 6000) ops hinit h
  exact ⟨hinv.1, hinv.2.1⟩

/-- A trivial oracle environment used by concrete witnesses. -/
def zeroEnv : Env := ⟨fun _ => 0, fun _ => 0, 0⟩

/-- Witness for `powerPool_invariant`: a concrete run that registers the
flashlight, drains for one second and collects a legendary charge. -/
theorem powerPool_invariant_witness :
    0 ≤ (runOps (PowerManager.init 6000)
          [PowerOp.registerLight "flashlight" 8 LightType.flashlight 1,
           PowerOp.updateFlashlightConsumption "flashlight" 3,
           PowerOp.update zeroEnv 1, PowerOp.addCharge Rarity.legendary]).currentPower ∧
      (runOps (PowerManager.init 6000)
          [PowerOp.registerLight "flashlight" 8 LightType.flashlight 1,
           PowerOp.updateFlashlightConsumption "flashlight" 3,
           PowerOp.update zeroEnv 1, PowerOp.addCharge Rarity.legendary]).currentPower ≤
        (runOps (PowerManager.init 6000)
          [PowerOp.registerLight "flashlight" 8 LightType.flashlight 1,
           PowerOp.updateFlashlightConsumption "flashlight" 3,
           PowerOp.update zeroEnv 1, PowerOp.addCharge Rarity.legendary]).maxPower := by
  refine powerPool_invariant _ ?_
  intro op hop
  rcases hop with _ | ⟨_, _ | ⟨_, _ | ⟨_, _ | ⟨_, h⟩⟩⟩⟩
  · trivial
  · trivial
  · show (0 : ℚ) ≤ 1
    norm_num
  · trivial
  · exact absurd h (List.not_mem_nil op)

/-- The state used by the C3 scenario: the constructor's 6000-unit pool, one
registered flashlight consumer (spotlight intensity 8, priority 1 as in
`Game.ts` line 93), set to the level-3 rate 33.33/s. -/
def c3Start : PowerManager :=
  ((PowerManager.init 6000).registerLight "flashlight" 8 LightType.flashlight
      1).updateFlashlightConsumption "flashlight" 3

/-- Shape of a power manager whose only consumer is the flashlight at the
level-3 rate: only `currentPower`, the low-power flag and the stored
intensity evolve under `update`. -/
def flashState (cur : ℚ) (b : Bool) (i : ℚ) : PowerManager :=
  ⟨cur, 6000, b, [⟨"flashlight", i, 8, 3333/100, 1⟩]⟩

theorem update_flashState (env : Env) (cur : ℚ) (b : Bool) (i : ℚ) (d : ℚ) :
    ∃ b' i', PowerManager.update env (flashState cur b i) d =
      flashState (max 0 (cur - 3333/100 * d)) b' i' := by
  refine ⟨?_, ?_, ?_⟩
  · exact decide (max 0 (cur - 3333/100 * d) / 6000 * 100 ≤ 40)
  · exact effectIntensity env (max 0 (cur - 3333/100 * d) / 6000 * 100) 0
      ⟨"flashlight", i, 8, 3333/100, 1⟩
  · show PowerManager.update env (flashState cur b i) d = _
    unfold PowerManager.update flashState
    rw [if_neg (by simp)]
    have htot : calculateTotalConsumption [⟨"flashlight", i, 8, 3333/100, 1⟩] = 3333/100 := by
      simp [calculateTotalConsumption, shouldConsume]
    simp only [htot]
    rfl

theorem drain_linear (env : Env) (dts : List ℚ) :
    ∀ (cur : ℚ) (b : Bool) (i : ℚ),
      (∀ d ∈ dts, 0 ≤ d) → 0 ≤ cur - 3333/100 * dts.sum →
      ∃ b' i', dts.foldl (PowerManager.update env) (flashState cur b i) =
        flashState (cur - 3333/100 * dts.sum) b' i' := by
  induction dts with
  | nil =>
    intro cur b i _ _
    exact ⟨b, i, by simp⟩
  | cons d rest ih =>
    intro cur b i hpos hsum
    have hd : 0 ≤ d := hpos d (List.mem_cons_self _ _)
    have hrest : ∀ x ∈ rest, 0 ≤ x := fun x hx => hpos x (List.mem_cons_of_mem _ hx)
    have hrsum : 0 ≤ rest.sum := List.sum_nonneg hrest
    rw [List.sum_cons] at hsum
    have hstep : 0 ≤ cur - 3333/100 * d := by nlinarith
    obtain ⟨b1, i1, h1⟩ := update_flashState env cur b i d
    rw [max_eq_right hstep] at h1
    obtain ⟨b2, i2, h2⟩ := ih (cur - 3333/100 * d) b1 i1 hrest (by nlinarith)
    refine ⟨b2, i2, ?_⟩
    rw [List.foldl_cons, h1, h2, List.sum_cons]
    congr 1
    ring

/-- **C3.** From a full 6000-unit pool with a single registered flashlight
consumer at 33.33 units/sec (level 3), any sequence of `update` calls whose
nonnegative deltas total 90 seconds leaves `currentPower` within 0.1 of
3000.3 (in the exact-rational model it is exactly 3000.3), and a subsequent
`addCharge('legendary')` returns exactly 1080 and leaves the pool at
4080.3 ± 0.1. -/
theorem powerScenario_ninety_seconds (env : Env) (dts : List ℚ)
    (hpos : ∀ d ∈ dts, 0 ≤ d) (hsum : dts.sum = 90) :
    |(dts.foldl (PowerManager.update env) c3Start).currentPower - 30003/10| ≤ 1/10 ∧
      ((dts.foldl (PowerManager.update env) c3Start).addCharge Rarity.legendary).1 = 1080 ∧
      |((dts.foldl (PowerManager.update env) c3Start).addCharge
          Rarity.legendary).2.currentPower - 40803/10| ≤ 1/10 := by
  have hc3 : c3Start = flashState 6000 false 8 := by
    norm_num [c3Start, PowerManager.init, PowerManager.registerLight, setConsumer,
      PowerManager.updateFlashlightConsumption, flashlightConsumptionRates, flashState,
      consumptionRates]
  obtain ⟨b', i', hfold⟩ :=
    drain_linear env dts 6000 false 8 hpos (by rw [hsum]; norm_num)
  rw [hc3, hfold, hsum]
  have hcur : (6000 : ℚ) - 3333/100 * 90 = 30003/10 := by norm_num
  rw [hcur]
  refine ⟨?_, ?_, ?_⟩
  · show |(30003/10 : ℚ) - 30003/10| ≤ 1/10
    rw [sub_self, abs_zero]
    norm_num
  · show min 6000 (30003/10 + chargeValues Rarity.legendary) - 30003/10 = 1080
    rw [show chargeValues Rarity.legendary = 1080 from rfl]
    rw [min_eq_right (by norm_num)]
    norm_num
  · show |min 6000 (30003/10 + chargeValues Rarity.legendary) - 40803/10| ≤ 1/10
    rw [show chargeValues Rarity.legendary = 1080 from rfl]
    rw [min_eq_right (by norm_num)]
    norm_num

/-- Witness for `powerScenario_ninety_seconds`: a single 90-second tick. -/
theorem powerScenario_ninety_seconds_witness :
    |(([90] : List ℚ).foldl (PowerManager.update zeroEnv) c3Start).currentPower
        - 30003/10| ≤ 1/10 ∧
      ((([90] : List ℚ).foldl (PowerManager.update zeroEnv) c3Start).addCharge
          Rarity.legendary).1 = 1080 ∧
      |((([90] : List ℚ).foldl (PowerManager.update zeroEnv) c3Start).addCharge
          Rarity.legendary).2.currentPower - 40803/10| ≤ 1/10 :=
  powerScenario_ninety_seconds zeroEnv [90]
    (by intro d hd; rcases hd with _ | ⟨_, h⟩; · norm_num
        · exact absurd h (List.not_mem_nil d))
    (by simp)

theorem applyEffectsList_map_intensity (env : Env) (pct : ℚ)
    (h20 : 20 < pct) (h40 : pct ≤ 40) :
    ∀ (i : ℕ) (l : List PowerConsumer),
      (applyEffectsList env pct i l).map PowerConsumer.intensity =
        l.map fun c =>
          if c.id = "flashlight" then
            if 1/1000 < c.intensity then c.baseIntensity * (pct / 40) else c.intensity
          else
            c.baseIntensity * (pct / 40) * (env.sin (env.time * 2 + c.priority) * (1/10) + 9/10)
  | _, [] => rfl
  | i, c :: rest => by
    unfold applyEffectsList
    simp only [List.map_cons]
    rw [applyEffectsList_map_intensity env pct h20 h40 (i + 1) rest]
    congr 1
    show effectIntensity env pct i c = _
    unfold effectIntensity
    have h0 : ¬ pct ≤ 0 := by linarith
    have hn20 : ¬ pct ≤ 20 := by linarith
    by_cases hid : c.id = "flashlight"
    · rw [if_pos hid, if_pos hid, if_neg h0, if_neg hn20, if_pos h40]
    · rw [if_neg hid, if_neg hid, if_neg h0, if_neg hn20, if_pos h40]

/-- **C4, amended.** In the Low band (20 % < percentage ≤ 40 %),
`applyPowerEffects` sets the flashlight consumer — and only the flashlight
consumer, and only when it is already on (intensity > 0.001) — to exactly
`baseIntensity × (percentage/40)`; an off flashlight is left untouched,
and every other consumer is set to
`baseIntensity × (percentage/40) × (0.9 + 0.1·sin(2·time + priority))`:
the linear ramp additionally modulated by a sinusoidal flicker factor. -/
theorem lowband_dimming (env : Env) (pm : PowerManager)
    (h20 : 20 < pm.currentPower / pm.maxPower * 100)
    (h40 : pm.currentPower / pm.maxPower * 100 ≤ 40) :
    (applyPowerEffects env pm).consumers.map PowerConsumer.intensity =
      pm.consumers.map fun c =>
        if c.id = "flashlight" then
          if 1/1000 < c.intensity then
            c.baseIntensity * (pm.currentPower / pm.maxPower * 100 / 40)
          else c.intensity
        else
          c.baseIntensity * (pm.currentPower / pm.maxPower * 100 / 40) *
            (env.sin (env.time * 2 + c.priority) * (1/10) + 9/10) :=
  applyEffectsList_map_intensity env _ h20 h40 0 pm.consumers

/-- Oracle environment for the C4 scenario: `Math.sin` sampled at a moment
where it returns 0, `Math.random()` returning 1. -/
def c4Env : Env := ⟨fun _ => 0, fun _ => 1, 0⟩

/-- One static (non-flashlight) lamp of base intensity 1, pool at 30 % of a
100-unit maximum — inside the Low band. -/
def c4PM : PowerManager := ⟨30, 100, false, [⟨"lamp", 1, 1, 1, 3⟩]⟩

/-- **C4, counterexample.** At 30 % power (Low band), the claimed pure
linear ramp predicts intensity `1 × (30/40) = 3/4` for the registered lamp,
but the code produces `3/4 × 9/10 = 27/40` when `sin` evaluates to 0: the
per-tick effect multiplies the ramp by a flicker factor for every
non-flashlight consumer, so it is not `base × (percentage/40)` exactly. -/
theorem lowband_pure_ramp_cex :
    (20 < (30 : ℚ)/100 * 100 ∧ (30 : ℚ)/100 * 100 ≤ 40) ∧
      (applyPowerEffects c4Env c4PM).consumers.map PowerConsumer.intensity = [27/40] ∧
      (applyPowerEffects c4Env c4PM).consumers.map PowerConsumer.intensity ≠
        [1 * ((30 : ℚ)/100 * 100 / 40)] := by
  have hs : ¬ ("lamp" = "flashlight") := by decide
  refine ⟨by norm_num, ?_, ?_⟩
  · norm_num [applyPowerEffects, applyEffectsList, effectIntensity, c4Env, c4PM, hs]
  · norm_num [applyPowerEffects, applyEffectsList, effectIntensity, c4Env, c4PM, hs]

/-- Witness for `lowband_dimming` at the concrete lamp state `c4PM`. -/
theorem lowband_dimming_witness :
    (applyPowerEffects c4Env c4PM).consumers.map PowerConsumer.intensity =
      c4PM.consumers.map fun c =>
        if c.id = "flashlight" then
          if 1/1000 < c.intensity then
            c.baseIntensity * (c4PM.currentPower / c4PM.maxPower * 100 / 40)
          else c.intensity
        else
          c.baseIntensity * (c4PM.currentPower / c4PM.maxPower * 100 / 40) *
            (c4Env.sin (c4Env.time * 2 + c.priority) * (1/10) + 9/10) :=
  lowband_dimming c4Env c4PM (by norm_num [c4PM]) (by norm_num [c4PM])

/-- The per-level spotlight intensity table of the `Flashlight` class
(`SFXGenerator.ts` configs, levels 1-5). -/
def configIntensity : ℕ → ℚ
  | 1 => 4
  | 2 => 6
  | 3 => 8
  | 4 => 10
  | 5 => 15
  | _ => 0

/-- The flashlight component's own fields (`SFXGenerator.ts` `Flashlight`):
on/off state and current level.  Its spotlight object is the very light the
power manager registered, so `spotlight.intensity` lives in the
`"flashlight"` consumer's `intensity` field of the shared state below. -/
structure FlashlightState where
  isOn : Bool
  currentLevel : ℕ
deriving DecidableEq, Repr

/-- The flashlight together with the power manager it is wired to through
`setLevelChangeCallback` (in `Game.ts` lines 100-102 the callback is
`powerManager.updateFlashlightConsumption('flashlight', level)`). -/
structure GameState where
  fl : FlashlightState
  pm : PowerManager
deriving DecidableEq, Repr

/-- Write the shared spotlight's intensity (seen by the power manager
through the registered consumer record). -/
def setSpotIntensity (pm : PowerManager) (v : ℚ) : PowerManager :=
  { pm with consumers := pm.consumers.map fun c =>
      if c.id = "flashlight" then { c with intensity := v } else c }

/-- `Flashlight.updateFlashlightConfig` (`SFXGenerator.ts` lines 950-975):
the spotlight intensity is loaded from the level config **only while the
flashlight is on**; while off the intensity (0) is preserved.  The other
spotlight fields (distance, angle, penumbra, color) are not part of the
power state. -/
def Flashlight.updateFlashlightConfig (s : GameState) : GameState :=
  if s.fl.isOn then { s with pm := setSpotIntensity s.pm (configIntensity s.fl.currentLevel) }
  else s

/-- `Flashlight.setLevel` (`SFXGenerator.ts` lines 1006-1023): levels
outside 1-5 are rejected; otherwise the level is recorded locally, the
config applied, and the power manager is notified **only if the flashlight
is currently on**. -/
def Flashlight.setLevel (s : GameState) (level : ℕ) : GameState × Bool :=
  if 1 ≤ level ∧ level ≤ 5 then
    let s1 : GameState := { s with fl := { s.fl with currentLevel := level } }
    let s2 := Flashlight.updateFlashlightConfig s1
    if s2.fl.isOn then
      ({ s2 with pm := s2.pm.updateFlashlightConsumption "flashlight" level }, true)
    else (s2, true)
  else (s, false)

/-- `Flashlight.toggle` (`SFXGenerator.ts` lines 977-1004): flip the state;
turning on restores the level intensity and pushes the current level's rate
to the power manager; turning off zeroes the intensity and pushes rate 0
(level 0 signifies "off"). -/
def Flashlight.toggle (s : GameState) : GameState × Bool :=
  let nowOn := !s.fl.isOn
  let s1 : GameState := { s with fl := { s.fl with isOn := nowOn } }
  if nowOn then
    let s2 : GameState :=
      { s1 with pm := setSpotIntensity s1.pm (configIntensity s1.fl.currentLevel) }
    ({ s2 with pm := s2.pm.updateFlashlightConsumption "flashlight" s2.fl.currentLevel }, nowOn)
  else
    let s2 : GameState := { s1 with pm := setSpotIntensity s1.pm 0 }
    ({ s2 with pm := s2.pm.updateFlashlightConsumption "flashlight" 0 }, nowOn)

/-- **C5.** While the flashlight is off, `setLevel` leaves the power
manager's state — in particular the flashlight consumer's stored
consumption rate, and every other consumer field — completely unchanged
(the level-change callback is guarded by `isOn`); only the next `toggle`
to "on" propagates the then-current level's rate to the simulation, via
`updateFlashlightConsumption` on the freshly restored intensity. -/
theorem setLevel_while_off (s : GameState) (level : ℕ) (hoff : s.fl.isOn = false) :
    (Flashlight.setLevel s level).1.pm = s.pm ∧
      (Flashlight.setLevel s level).1.fl.isOn = false ∧
      (Flashlight.toggle (Flashlight.setLevel s level).1).1.pm =
        (setSpotIntensity s.pm
            (configIntensity (Flashlight.setLevel s level).1.fl.currentLevel)).updateFlashlightConsumption
          "flashlight" (Flashlight.setLevel s level).1.fl.currentLevel := by
  unfold Flashlight.setLevel Flashlight.updateFlashlightConfig
  by_cases hl : 1 ≤ level ∧ level ≤ 5
  · rw [if_pos hl]
    simp only [hoff]
    rw [if_neg (by simp), if_neg (by simp)]
    refine ⟨rfl, rfl, ?_⟩
    unfold Flashlight.toggle
    simp [hoff]
  · rw [if_neg hl]
    refine ⟨rfl, hoff, ?_⟩
    unfold Flashlight.toggle
    simp [hoff]

/-- The concrete C5 scenario state: flashlight on at level 3 with the
level-3 rate loaded, before being toggled off. -/
def c5On : GameState :=
  ⟨⟨true, 3⟩, (PowerManager.init 6000).registerLight "flashlight" 8 LightType.flashlight 1⟩

/-- Witness for `setLevel_while_off`, running the spec's scenario 6:
toggle off from level 3, change level 3→5 while off — the consumer's rate
stays 0 (not 60) — then toggle back on, which propagates the level-5 rate
60. -/
theorem setLevel_while_off_witness :
    ((Flashlight.setLevel (Flashlight.toggle c5On).1 5).1.pm = (Flashlight.toggle c5On).1.pm ∧
      (Flashlight.setLevel (Flashlight.toggle c5On).1 5).1.fl.isOn = false ∧
      (Flashlight.toggle (Flashlight.setLevel (Flashlight.toggle c5On).1 5).1).1.pm =
        (setSpotIntensity (Flashlight.toggle c5On).1.pm
            (configIntensity
              (Flashlight.setLevel (Flashlight.toggle c5On).1 5).1.fl.currentLevel)).updateFlashlightConsumption
          "flashlight" (Flashlight.setLevel (Flashlight.toggle c5On).1 5).1.fl.currentLevel) ∧
      ((Flashlight.setLevel (Flashlight.toggle c5On).1 5).1.pm.consumers.map
          PowerConsumer.consumptionRate = [0] ∧
        (Flashlight.toggle
            (Flashlight.setLevel (Flashlight.toggle c5On).1 5).1).1.pm.consumers.map
          PowerConsumer.consumptionRate = [60]) := by
  refine ⟨setLevel_while_off (Flashlight.toggle c5On).1 5 ?_, ?_, ?_⟩
  · norm_num [Flashlight.toggle, c5On]
  · norm_num [Flashlight.setLevel, Flashlight.updateFlashlightConfig, Flashlight.toggle, c5On,
      PowerManager.init, PowerManager.registerLight, setConsumer, setSpotIntensity,
      PowerManager.updateFlashlightConsumption, flashlightConsumptionRates, configIntensity]
  · norm_num [Flashlight.setLevel, Flashlight.updateFlashlightConfig, Flashlight.toggle, c5On,
      PowerManager.init, PowerManager.registerLight, setConsumer, setSpotIntensity,
      PowerManager.updateFlashlightConsumption, flashlightConsumptionRates, configIntensity]

/-- `LootboxManager.selectRarityByDistance` (LootboxManager.ts lines
584-691), the branch taken when both spawn and exit positions are set
(otherwise the code falls back to the weighted random `selectRarity()`).
`nStart`/`nEnd` are the normalized distances
`position.distanceTo(spawn|exit) / maxPossibleDistance` — passed in as
exact rationals, and quantified over all values in every theorem below.
`currentIndex` is `allPositions.indexOf(position)`, which equals the loop
index since the position objects of a batch are distinct; `total` is
`allPositions.length`.  The three counters count the rarities of the
lootboxes already spawned in this batch (the manager's map is cleared at
the start of the batch and each lootbox is inserted before the next
iteration).  Natural subtraction `total - currentIndex` agrees with the JS
integer arithmetic because `currentIndex < total` in the loop, and the JS
comparisons `currentIndex >= total - k` are rendered subtraction-free as
`total ≤ currentIndex + k`, which also matches JS when `total < k`. -/
def selectRarityByDistance (nStart nEnd : ℚ) (legendaryCount epicCount rareCount : ℕ)
    (currentIndex total : ℕ) : Rarity :=
  if legendaryCount = 0 ∧ (3/5 < nStart ∧ 3/5 < nEnd) then .legendary
  else if legendaryCount = 0 ∧ ¬(3/5 < nStart ∧ 3/5 < nEnd) ∧
      (1/2 < nStart ∨ 1/2 < nEnd) ∧ total - currentIndex ≤ 3 then .legendary
  else if legendaryCount = 0 ∧ ¬(3/5 < nStart ∧ 3/5 < nEnd) ∧
      ¬(1/2 < nStart ∨ 1/2 < nEnd) ∧ currentIndex + 1 = total then .legendary
  else if epicCount = 0 ∧ (1/2 < nStart ∧ 10 ≤ total) then .epic
  else if epicCount = 0 ∧ ¬(1/2 < nStart ∧ 10 ≤ total) ∧ total ≤ currentIndex + 4 then .epic
  else if rareCount < 2 ∧ 3/10 < nStart then .rare
  else if rareCount < 2 ∧ ¬(3/10 < nStart) ∧ rareCount = 0 ∧ total ≤ currentIndex + 3 then .rare
  else .common

/-- Number of lootboxes of rarity `r` among those spawned so far. -/
def countRarity (l : List Rarity) (r : Rarity) : ℕ :=
  (l.filter fun x => x == r).length

/-- The rarity-assignment loop of `spawnLootboxes` (lines 348-372):
position `i`'s rarity is selected from its distances and the counts of the
rarities assigned so far (`acc`, most recent first). -/
def assignRaritiesAux (total : ℕ) : List (ℚ × ℚ) → ℕ → List Rarity → List Rarity
  | [], _, acc => acc.reverse
  | d :: rest, i, acc =>
    assignRaritiesAux total rest (i + 1)
      (selectRarityByDistance d.1 d.2 (countRarity acc .legendary)
        (countRarity acc .epic) (countRarity acc .rare) i total :: acc)

/-- The rarities assigned to a full batch whose i-th position has
normalized distances `dists[i]`. -/
def assignRarities (dists : List (ℚ × ℚ)) : List Rarity :=
  assignRaritiesAux dists.length dists 0 []

theorem countRarity_cons (x : Rarity) (l : List Rarity) (r : Rarity) :
    countRarity (x :: l) r = (if x = r then 1 else 0) + countRarity l r := by
  unfold countRarity
  by_cases h : x = r <;> simp [h, List.filter_cons, Nat.add_comm]

theorem countRarity_reverse (l : List Rarity) (r : Rarity) :
    countRarity l.reverse r = countRarity l r := by
  unfold countRarity
  rw [List.filter_reverse, List.length_reverse]

theorem selectRarity_not_legendary (nStart nEnd : ℚ) (lc ec rc ci t : ℕ) (h : lc ≠ 0) :
    selectRarityByDistance nStart nEnd lc ec rc ci t ≠ .legendary := by
  unfold selectRarityByDistance
  split_ifs with h1 h2 h3 h4 h5 h6 h7
  · exact absurd h1.1 h
  · exact absurd h2.1 h
  · exact absurd h3.1 h
  · decide
  · decide
  · decide
  · decide
  · decide

theorem selectRarity_last_legendary (nStart nEnd : ℚ) (ec rc ci t : ℕ)
    (hlast : ci + 1 = t) :
    selectRarityByDistance nStart nEnd 0 ec rc ci t = .legendary := by
  unfold selectRarityByDistance
  by_cases hA : 3/5 < nStart ∧ 3/5 < nEnd
  · rw [if_pos ⟨rfl, hA⟩]
  · by_cases hB : 1/2 < nStart ∨ 1/2 < nEnd
    · rw [if_neg (fun hc => hA hc.2), if_pos ⟨rfl, hA, hB, by omega⟩]
    · rw [if_neg (fun hc => hA hc.2), if_neg (fun hc => hB hc.2.2.1),
        if_pos ⟨rfl, hA, hB, hlast⟩]

theorem assignRaritiesAux_keeps_one (total : ℕ) :
    ∀ (rest : List (ℚ × ℚ)) (i : ℕ) (acc : List Rarity),
      countRarity acc .legendary = 1 →
      countRarity (assignRaritiesAux total rest i acc) .legendary = 1
  | [], _, acc, h => by
    unfold assignRaritiesAux
    rwa [countRarity_reverse]
  | d :: rest, i, acc, h => by
    unfold assignRaritiesAux
    apply assignRaritiesAux_keeps_one total rest (i + 1)
    rw [countRarity_cons,
      if_neg (selectRarity_not_legendary _ _ _ _ _ _ _ (by omega)), h]

theorem assignRaritiesAux_exactly_one (total : ℕ) :
    ∀ (rest : List (ℚ × ℚ)) (i : ℕ) (acc : List Rarity),
      countRarity acc .legendary = 0 → i + rest.length = total → rest ≠ [] →
      countRarity (assignRaritiesAux total rest i acc) .legendary = 1
  | [], _, _, _, _, hne => absurd rfl hne
  | d :: rest, i, acc, h0, hlen, _ => by
    unfold assignRaritiesAux
    rw [h0]
    by_cases hleg : selectRarityByDistance d.1 d.2 0
        (countRarity acc .epic) (countRarity acc .rare) i total = .legendary
    · apply assignRaritiesAux_keeps_one
      rw [countRarity_cons, if_pos hleg, h0]
    · cases rest with
      | nil =>
        exact absurd (selectRarity_last_legendary d.1 d.2 _ _ i total (by simpa using hlen)) hleg
      | cons e rest' =>
        apply assignRaritiesAux_exactly_one total (e :: rest') (i + 1)
        · rw [countRarity_cons, if_neg hleg, h0]
        · simp only [List.length_cons] at hlen ⊢
          omega
        · simp

/-- **C2.** For every batch assignment over a non-empty position list with
both spawn and exit positions set (the `selectRarityByDistance` branch),
exactly one Legendary lootbox is produced, whatever the distances: never
more than one (once the count is positive every later call skips the
legendary block) and never zero (the last position accepts Legendary in
every branch: ideal both-far placement, the ≤3-remaining fallback, or the
unconditional last-position guarantee). -/
theorem rarity_exactly_one_legendary (dists : List (ℚ × ℚ)) (hne : dists ≠ []) :
    countRarity (assignRarities dists) .legendary = 1 :=
  assignRaritiesAux_exactly_one dists.length dists 0 [] rfl (Nat.zero_add _) hne

/-- Witness for `rarity_exactly_one_legendary`: a two-position batch where
no distance criterion fires, so the final-position guarantee does. -/
theorem rarity_exactly_one_legendary_witness :
    countRarity (assignRarities [((0 : ℚ), (0 : ℚ)), (0, 0)]) .legendary = 1 :=
  rarity_exactly_one_legendary [((0 : ℚ), (0 : ℚ)), (0, 0)] (by simp)

/-- `MazeGenerator.checkPlayerAtExit` (MazeGenerator.ts lines 783-788).
The source computes `playerPosition.distanceTo(this.exitPosition) <=
threshold`, i.e. `Real.sqrt (sqDist p e) ≤ t`, after an early `false`
return when no exit has been set; it is a total function of its inputs and
cannot throw.  The model uses the equivalent decidable squared comparison
(`√s ≤ t ↔ 0 ≤ t ∧ s ≤ t²` for `s ≥ 0`); `checkPlayerAtExit_spec` proves
the equivalence with the square-root form. -/
def checkPlayerAtExit (exitPosition : Option Vec3) (playerPosition : Vec3)
    (threshold : ℚ) : Bool :=
  match exitPosition with
  | none => false
  | some e => decide (0 ≤ threshold ∧ sqDist playerPosition e ≤ threshold ^ 2)

/-- **C10.** For every player position and threshold, `checkPlayerAtExit`
returns `false` when no exit position is set, and otherwise returns `true`
exactly when the Euclidean distance from the player to the exit is at most
the threshold; being a total function it never throws. -/
theorem checkPlayerAtExit_spec (exitPosition : Option Vec3) (p : Vec3) (t : ℚ) :
    (exitPosition = none → checkPlayerAtExit exitPosition p t = false) ∧
      ∀ e, exitPosition = some e →
        (checkPlayerAtExit exitPosition p t = true ↔
          Real.sqrt ((sqDist p e : ℚ) : ℝ) ≤ (t : ℝ)) := by
  constructor
  · rintro rfl
    rfl
  · rintro e rfl
    show decide (0 ≤ t ∧ sqDist p e ≤ t ^ 2) = true ↔ _
    rw [decide_eq_true_eq, Real.sqrt_le_iff]
    constructor
    · intro h
      exact ⟨by exact_mod_cast h.1, by exact_mod_cast h.2⟩
    · intro h
      exact ⟨by exact_mod_cast h.1, by exact_mod_cast h.2⟩

/-- Witness for `checkPlayerAtExit_spec`: the null-exit case and a concrete
exit at distance 2 with the default threshold 2.0. -/
theorem checkPlayerAtExit_spec_witness :
    checkPlayerAtExit none ⟨0, 0, 0⟩ 2 = false ∧
      (checkPlayerAtExit (some ⟨2, 0, 0⟩) ⟨0, 0, 0⟩ 2 = true ↔
        Real.sqrt ((sqDist ⟨0, 0, 0⟩ ⟨2, 0, 0⟩ : ℚ) : ℝ) ≤ ((2 : ℚ) : ℝ)) :=
  ⟨(checkPlayerAtExit_spec none ⟨0, 0, 0⟩ 2).1 rfl,
    (checkPlayerAtExit_spec (some ⟨2, 0, 0⟩) ⟨0, 0, 0⟩ 2).2 ⟨2, 0, 0⟩ rfl⟩

/-- The cell categories of the maze grid (`MazeCell.type`). -/
inductive CellType where
  | wall
  | floor
  | room
deriving DecidableEq, Repr

/-- The start-cell search at the head of `MazeGenerator.generateCorridors`
(MazeGenerator.ts lines 153-161):

    let startX = 1, startZ = 1;
    while (this.cells[startX][startZ].type === 'room') {
      startX = Math.floor(Math.random() * (this.width - 2)) + 1;
      startZ = Math.floor(Math.random() * (this.height - 2)) + 1;
    }

`stream j` is the pair drawn by the j-th iteration's two `Math.random()`
calls; `cur` starts at `(1, 1)`.  The loop itself has **no** attempt cap,
so the model carries explicit fuel: `none` means the loop is still running
(still on a room cell) after `fuel` resamples. -/
def searchStartCell (cells : ℕ → ℕ → CellType) (stream : ℕ → ℕ × ℕ) :
    ℕ → ℕ → ℕ × ℕ → Option (ℕ × ℕ)
  | 0, _, cur => if cells cur.1 cur.2 = .room then none else some cur
  | fuel + 1, j, cur =>
    if cells cur.1 cur.2 = .room then searchStartCell cells stream fuel (j + 1) (stream j)
    else some cur

/-- An 18×18 grid (the smallest allowed by the claimed precondition
`width, height ≥ 2 × maxRoomSize + 2 = 18`) holding the single 4×4 room
with origin (1,1) that `generateRooms` carves when its first attempt draws
that candidate; every other cell is still wall. -/
def c9Cells : ℕ → ℕ → CellType := fun x z =>
  if 1 ≤ x ∧ x ≤ 4 ∧ 1 ≤ z ∧ z ≤ 4 then .room else .wall

theorem c9Cells_search_stuck :
    ∀ (fuel j : ℕ) (cur : ℕ × ℕ), c9Cells cur.1 cur.2 = .room →
      searchStartCell c9Cells (fun _ => (2, 2)) fuel j cur = none := by
  intro fuel
  induction fuel with
  | zero =>
    intro j cur hcur
    unfold searchStartCell
    rw [if_pos hcur]
  | succ n ih =>
    intro j cur hcur
    unfold searchStartCell
    rw [if_pos hcur]
    exact ih (j + 1) (2, 2) (by decide)

/-- **C9, counterexample.** No fixed attempt cap bounds the search for a
non-room corridor starting cell: for every candidate cap there is a grid
satisfying the precondition (18×18 with one carved room, plenty of
non-room cells) and a possible `Math.random()` stream — one that keeps
proposing the in-range room cell (2,2) — on which the `while` loop is
still running after `cap` resamples.  Hence `generateMaze` is not
bounded-time; it terminates only with probability 1. -/
theorem corridorStart_search_unbounded :
    ¬ ∃ cap : ℕ, ∀ (cells : ℕ → ℕ → CellType) (stream : ℕ → ℕ × ℕ),
        (∃ x z, x < 18 ∧ z < 18 ∧ cells x z ≠ CellType.room) →
        (searchStartCell cells stream cap 0 (1, 1)).isSome = true := by
  rintro ⟨cap, hcap⟩
  have h := hcap c9Cells (fun _ => (2, 2)) ⟨0, 0, by norm_num, by norm_num, by decide⟩
  rw [c9Cells_search_stuck cap 0 (1, 1) (by decide)] at h
  simp at h

/-- **C9, amended.** The room-placement loop runs a fixed 15 attempts and
the backtracking loop is bounded by the cell count, but the
non-room-start-cell search is a rejection-sampling loop with no attempt
cap: it terminates — with a non-room result — exactly when the initial
cell (1,1) is not in a room or the random stream proposes some non-room
cell within the available iterations; on a stream that keeps hitting room
cells it runs forever. -/
theorem corridorStart_search_terminates (cells : ℕ → ℕ → CellType)
    (stream : ℕ → ℕ × ℕ) (fuel j : ℕ) (cur : ℕ × ℕ)
    (h : cells cur.1 cur.2 ≠ .room ∨
      ∃ k, k < fuel ∧ cells (stream (j + k)).1 (stream (j + k)).2 ≠ .room) :
    ∃ c, searchStartCell cells stream fuel j cur = some c ∧ cells c.1 c.2 ≠ .room := by
  induction fuel generalizing j cur with
  | zero =>
    rcases h with h | ⟨k, hk, _⟩
    · exact ⟨cur, by unfold searchStartCell; rw [if_neg h], h⟩
    · omega
  | succ n ih =>
    by_cases hcur : cells cur.1 cur.2 = .room
    · have hnext : cells (stream j).1 (stream j).2 ≠ .room ∨
          ∃ k, k < n ∧ cells (stream (j + 1 + k)).1 (stream (j + 1 + k)).2 ≠ .room := by
        rcases h with h | ⟨k, hk, hkr⟩
        · exact absurd hcur h
        · cases k with
          | zero => exact Or.inl (by simpa using hkr)
          | succ m =>
            refine Or.inr ⟨m, by omega, ?_⟩
            have : j + 1 + m = j + (m + 1) := by omega
            rwa [this]
      obtain ⟨c, hc, hcr⟩ := ih (j + 1) (stream j) hnext
      exact ⟨c, by unfold searchStartCell; rw [if_pos hcur]; exact hc, hcr⟩
    · exact ⟨cur, by unfold searchStartCell; rw [if_neg hcur], hcur⟩

/-- Witness for `corridorStart_search_terminates`: on the all-wall initial
grid the loop exits immediately at (1,1). -/
theorem corridorStart_search_terminates_witness :
    ∃ c, searchStartCell (fun _ _ => CellType.wall) (fun _ => (2, 2)) 1 0 (1, 1) = some c ∧
      (fun _ _ => CellType.wall) c.1 c.2 ≠ CellType.room :=
  corridorStart_search_terminates (fun _ _ => CellType.wall) (fun _ => (2, 2)) 1 0 (1, 1)
    (Or.inl (by decide))

/-- Cell-to-world conversion used throughout the code base:
`world = (cellIndex − gridDimension/2) × cellSize` with cell size 2, at the
given height `y`. -/
def cellWorld (w h : ℕ) (y : ℚ) (x z : ℕ) : Vec3 :=
  ⟨((x : ℚ) - (w : ℚ) / 2) * 2, y, ((z : ℚ) - (h : ℚ) / 2) * 2⟩

/-- An entry of `selectExitPoint`'s candidate array: a cell together with
its distance from spawn.  The source stores the Euclidean distance
`spawn.distanceTo(world(x, z, 1.6))`; the model stores its square.  Since
`√` is strictly monotone on nonnegative reals, the descending order, the
top-25 % slice and the selected cell are identical for the two choices. -/
structure ExitCandidate where
  cx : ℕ
  cz : ℕ
  dist : ℚ
deriving DecidableEq, Repr, Inhabited

/-- Candidate collection of `selectExitPoint` for one cell category
(lines 660-683: all cells of the grid, in x-major z-inner order). -/
def collectExitCandidates (w h : ℕ) (cells : ℕ → ℕ → CellType) (spawn : Vec3)
    (t : CellType) : List ExitCandidate :=
  (List.range w).flatMap fun x =>
    (List.range h).filterMap fun z =>
      if cells x z = t then some ⟨x, z, sqDist spawn (cellWorld w h (8/5) x z)⟩ else none

/-- Room cells, falling back to floor cells when no room exists. -/
def exitCandidates (w h : ℕ) (cells : ℕ → ℕ → CellType) (spawn : Vec3) :
    List ExitCandidate :=
  let rooms := collectExitCandidates w h cells spawn .room
  if rooms.isEmpty then collectExitCandidates w h cells spawn .floor else rooms

/-- Insert into a descending-by-`f` list, keeping it descending. -/
def insertDescBy (f : ExitCandidate → ℚ) (a : ExitCandidate) :
    List ExitCandidate → List ExitCandidate
  | [] => [a]
  | b :: l => if f b ≤ f a then a :: b :: l else b :: insertDescBy f a l

/-- Insertion sort, descending by `f`: one possible result of the source's
`sort((a, b) => b.distance - a.distance)` (which fixes the relative order
of distinct distances and leaves ties unspecified). -/
def sortDescBy (f : ExitCandidate → ℚ) : List ExitCandidate → List ExitCandidate
  | [] => []
  | a :: l => insertDescBy f a (sortDescBy f l)

theorem length_insertDescBy (f : ExitCandidate → ℚ) (a : ExitCandidate) :
    ∀ l, (insertDescBy f a l).length = l.length + 1
  | [] => rfl
  | b :: l => by
    unfold insertDescBy
    split
    · rfl
    · simp [length_insertDescBy f a l]

theorem length_sortDescBy (f : ExitCandidate → ℚ) :
    ∀ l, (sortDescBy f l).length = l.length
  | [] => rfl
  | a :: l => by
    unfold sortDescBy
    rw [length_insertDescBy, length_sortDescBy f l]
    rfl

theorem mem_insertDescBy (f : ExitCandidate → ℚ) (a x : ExitCandidate) :
    ∀ l, x ∈ insertDescBy f a l ↔ x = a ∨ x ∈ l
  | [] => by simp [insertDescBy]
  | b :: l => by
    unfold insertDescBy
    split
    · simp [or_comm, or_assoc, or_left_comm]
    · simp only [List.mem_cons, mem_insertDescBy f a x l]
      tauto

theorem mem_sortDescBy (f : ExitCandidate → ℚ) (x : ExitCandidate) :
    ∀ l, x ∈ sortDescBy f l ↔ x ∈ l
  | [] => Iff.rfl
  | a :: l => by
    unfold sortDescBy
    rw [mem_insertDescBy, mem_sortDescBy f x l]
    simp

theorem pairwise_insertDescBy (f : ExitCandidate → ℚ) (a : ExitCandidate) :
    ∀ l, l.Pairwise (fun u v => f v ≤ f u) →
      (insertDescBy f a l).Pairwise (fun u v => f v ≤ f u)
  | [], _ => List.pairwise_singleton _ _
  | b :: l, h => by
    rw [List.pairwise_cons] at h
    unfold insertDescBy
    split
    · refine List.pairwise_cons.2 ⟨?_, List.pairwise_cons.2 h⟩
      intro x hx
      rcases List.mem_cons.1 hx with rfl | hx
      · assumption
      · exact le_trans (h.1 x hx) (by assumption)
    · refine List.pairwise_cons.2 ⟨?_, pairwise_insertDescBy f a l h.2⟩
      intro x hx
      rcases (mem_insertDescBy f a x l).1 hx with rfl | hx
      · exact le_of_lt (lt_of_not_le (by assumption))
      · exact h.1 x hx

theorem pairwise_sortDescBy (f : ExitCandidate → ℚ) :
    ∀ l, (sortDescBy f l).Pairwise (fun u v => f v ≤ f u)
  | [] => List.Pairwise.nil
  | a :: l => pairwise_insertDescBy f a _ (pairwise_sortDescBy f l)

theorem getD_take_eq (l : List ExitCandidate) (k i : ℕ) (d : ExitCandidate)
    (h : i < k) : (l.take k).getD i d = l.getD i d := by
  induction l generalizing k i with
  | nil => simp
  | cons a l ih =>
    cases k with
    | zero => omega
    | succ k' =>
      cases i with
      | zero => rfl
      | succ i' =>
        rw [List.take_succ_cons, List.getD_cons_succ, List.getD_cons_succ]
        exact ih k' i' (by omega)

theorem getD_eq_get (l : List ExitCandidate) (i : ℕ) (d : ExitCandidate)
    (h : i < l.length) : l.getD i d = l.get ⟨i, h⟩ := by
  rw [List.getD_eq_getElem?_getD, List.getElem?_eq_getElem h]
  rfl

/-- `MazeGenerator.selectExitPoint` (lines 651-706): collect all room cells
(fallback floor cells) with their distance from spawn, sort descending by
distance, keep the farthest `max 1 ⌊n·0.25⌋` candidates, choose one of
them (`pick` models the uniform `Math.random()` draw as an arbitrary
natural, reduced mod the slice length), and return that cell's world
position at eye height 1.6.  With no candidate at all, mirror the spawn's
quadrant (lines 702-705).  `n·0.25` is exact in binary floating point, so
`Math.floor` of it is `n / 4` in `ℕ`. -/
def selectExitPoint (w h : ℕ) (cells : ℕ → ℕ → CellType) (spawn : Vec3)
    (pick : ℕ) : Vec3 :=
  let exitCands := exitCandidates w h cells spawn
  if exitCands.isEmpty then
    ⟨if 0 < spawn.x then -((w : ℚ) * 2 / 4) else (w : ℚ) * 2 / 4, 8/5,
      if 0 < spawn.z then -((h : ℚ) * 2 / 4) else (h : ℚ) * 2 / 4⟩
  else
    let sorted := sortDescBy ExitCandidate.dist exitCands
    let top := sorted.take (max 1 (exitCands.length / 4))
    let sel := top.getD (pick % top.length) default
    cellWorld w h (8/5) sel.cx sel.cz

theorem exitCandidates_dist (w h : ℕ) (cells : ℕ → ℕ → CellType) (spawn : Vec3) :
    ∀ c ∈ exitCandidates w h cells spawn,
      c.dist = sqDist spawn (cellWorld w h (8/5) c.cx c.cz) := by
  have aux : ∀ t, ∀ c ∈ collectExitCandidates w h cells spawn t,
      c.dist = sqDist spawn (cellWorld w h (8/5) c.cx c.cz) := by
    intro t c hc
    unfold collectExitCandidates at hc
    rcases List.mem_flatMap.1 hc with ⟨x, _, hc2⟩
    rcases List.mem_filterMap.1 hc2 with ⟨z, _, hzc⟩
    split at hzc
    · injection hzc with h2
      rw [← h2]
    · exact absurd hzc (by simp)
  intro c hc
  simp only [exitCandidates] at hc
  split at hc
  · exact aux .floor c hc
  · exact aux .room c hc

/-- **C6.** Whenever the maze has at least one exit candidate cell, the
exit returned by `selectExitPoint` — whichever member of the farthest-25 %
slice the uniform draw lands on — lies at Euclidean distance from spawn at
least the median candidate distance (the upper median
`sorted[(n−1)/2]` of the descending distance ordering, which dominates the
even-`n` middle average).  The candidate set is all Room cells, or all
Floor cells when no room exists. -/
theorem exit_distance_ge_median (w h : ℕ) (cells : ℕ → ℕ → CellType) (spawn : Vec3)
    (pick : ℕ) (hne : exitCandidates w h cells spawn ≠ []) :
    Real.sqrt (((sortDescBy ExitCandidate.dist (exitCandidates w h cells spawn)).getD
        (((exitCandidates w h cells spawn).length - 1) / 2) default).dist : ℝ) ≤
      Real.sqrt ((sqDist spawn (selectExitPoint w h cells spawn pick) : ℚ) : ℝ) := by
  have hempty : (exitCandidates w h cells spawn).isEmpty = false := by
    simpa [List.isEmpty_iff] using hne
  have hn : 0 < (exitCandidates w h cells spawn).length := List.length_pos.2 hne
  have hslen : (sortDescBy ExitCandidate.dist (exitCandidates w h cells spawn)).length =
      (exitCandidates w h cells spawn).length := length_sortDescBy _ _
  have htoplen :
      ((sortDescBy ExitCandidate.dist (exitCandidates w h cells spawn)).take
          (max 1 ((exitCandidates w h cells spawn).length / 4))).length =
        min (max 1 ((exitCandidates w h cells spawn).length / 4))
          (exitCandidates w h cells spawn).length := by
    rw [List.length_take, hslen]
  have htoppos : 0 <
      ((sortDescBy ExitCandidate.dist (exitCandidates w h cells spawn)).take
          (max 1 ((exitCandidates w h cells spawn).length / 4))).length := by
    rw [htoplen]; omega
  have hidxlt : pick %
        ((sortDescBy ExitCandidate.dist (exitCandidates w h cells spawn)).take
          (max 1 ((exitCandidates w h cells spawn).length / 4))).length <
      ((sortDescBy ExitCandidate.dist (exitCandidates w h cells spawn)).take
          (max 1 ((exitCandidates w h cells spawn).length / 4))).length :=
    Nat.mod_lt _ htoppos
  obtain ⟨idx, hidxdef⟩ : ∃ idx, idx = pick %
      ((sortDescBy ExitCandidate.dist (exitCandidates w h cells spawn)).take
        (max 1 ((exitCandidates w h cells spawn).length / 4))).length := ⟨_, rfl⟩
  rw [← hidxdef] at hidxlt
  have hidxk : idx < max 1 ((exitCandidates w h cells spawn).length / 4) := by omega
  have hidxn : idx < (exitCandidates w h cells spawn).length := by omega
  have hmn : ((exitCandidates w h cells spawn).length - 1) / 2 <
      (exitCandidates w h cells spawn).length := by omega
  have hidxm : idx ≤ ((exitCandidates w h cells spawn).length - 1) / 2 := by omega
  -- the selected candidate is the idx-th entry of the sorted list
  have hselD :
      ((sortDescBy ExitCandidate.dist (exitCandidates w h cells spawn)).take
          (max 1 ((exitCandidates w h cells spawn).length / 4))).getD idx default =
        (sortDescBy ExitCandidate.dist (exitCandidates w h cells spawn)).getD idx default :=
    getD_take_eq _ _ idx default hidxk
  have hselmem :
      (sortDescBy ExitCandidate.dist (exitCandidates w h cells spawn)).getD idx default ∈
        exitCandidates w h cells spawn := by
    rw [← mem_sortDescBy ExitCandidate.dist _ (exitCandidates w h cells spawn)]
    rw [getD_eq_get _ idx default (by omega)]
    exact List.get_mem _ _ _
  -- descending order: the idx-th entry dominates the median entry
  have horder :
      ((sortDescBy ExitCandidate.dist (exitCandidates w h cells spawn)).getD
          (((exitCandidates w h cells spawn).length - 1) / 2) default).dist ≤
        ((sortDescBy ExitCandidate.dist (exitCandidates w h cells spawn)).getD
          idx default).dist := by
    rcases Nat.lt_or_ge idx (((exitCandidates w h cells spawn).length - 1) / 2) with hlt | hge
    · rw [getD_eq_get _ idx default (by omega), getD_eq_get _ _ default (by omega)]
      exact (List.pairwise_iff_get.1
        (pairwise_sortDescBy ExitCandidate.dist (exitCandidates w h cells spawn)))
        ⟨idx, by omega⟩ ⟨_, by omega⟩ hlt
    · have heq : idx = ((exitCandidates w h cells spawn).length - 1) / 2 := by omega
      rw [heq]
  -- the returned exit is the selected candidate's cell, at its distance
  have hexit : selectExitPoint w h cells spawn pick = cellWorld w h (8/5)
      ((sortDescBy ExitCandidate.dist (exitCandidates w h cells spawn)).getD idx default).cx
      ((sortDescBy ExitCandidate.dist (exitCandidates w h cells spawn)).getD idx default).cz := by
    simp only [selectExitPoint]
    rw [if_neg (by rw [hempty]; simp), ← hselD, hidxdef]
  have hdist : sqDist spawn (selectExitPoint w h cells spawn pick) =
      ((sortDescBy ExitCandidate.dist (exitCandidates w h cells spawn)).getD
        idx default).dist := by
    rw [hexit, exitCandidates_dist w h cells spawn _ hselmem]
  rw [hdist]
  exact Real.sqrt_le_sqrt (by exact_mod_cast horder)

/-- Witness for `exit_distance_ge_median`: a 2×2 all-room grid with spawn
at the origin. -/
theorem exit_distance_ge_median_witness :
    Real.sqrt (((sortDescBy ExitCandidate.dist
          (exitCandidates 2 2 (fun _ _ => CellType.room) ⟨0, 8/5, 0⟩)).getD
        (((exitCandidates 2 2 (fun _ _ => CellType.room) ⟨0, 8/5, 0⟩).length - 1) / 2)
          default).dist : ℝ) ≤
      Real.sqrt ((sqDist ⟨0, 8/5, 0⟩
          (selectExitPoint 2 2 (fun _ _ => CellType.room) ⟨0, 8/5, 0⟩ 0) : ℚ) : ℝ) :=
  exit_distance_ge_median 2 2 (fun _ _ => CellType.room) ⟨0, 8/5, 0⟩ 0 (by decide)

/-- A `Room` record (MazeGenerator.ts lines 16-23). -/
structure Room where
  x : ℕ
  z : ℕ
  width : ℕ
  height : ℕ
  centerX : ℕ
  centerZ : ℕ
deriving DecidableEq, Repr

/-- `Math.round`: round half toward +∞. -/
def jsRound (q : ℚ) : ℤ := ⌊q + 1/2⌋

/-- `LootboxManager.findStartRoomPosition` (lines 415-451): locate the room
containing the spawn cell (`round(world/cellSize + dim/2)`), scan its
footprint in x-major order for the first Room cell at least 2 world units
from spawn (squared: `4 ≤ sqDist`, candidate at height y = 1.0), falling
back to the room's center, and finally — when no room contains spawn — to
the point 2 units east of spawn.  Every path returns a position. -/
def findStartRoomPosition (spawn : Vec3) (cells : ℕ → ℕ → CellType) (rooms : List Room)
    (w h : ℕ) : Option Vec3 :=
  let spawnCellX := jsRound (spawn.x / 2 + (w : ℚ) / 2)
  let spawnCellZ := jsRound (spawn.z / 2 + (h : ℚ) / 2)
  match rooms.find? (fun r => decide ((r.x : ℤ) ≤ spawnCellX ∧
      spawnCellX < (r.x : ℤ) + (r.width : ℤ) ∧ (r.z : ℤ) ≤ spawnCellZ ∧
      spawnCellZ < (r.z : ℤ) + (r.height : ℤ))) with
  | some room =>
    match ((List.range room.width).flatMap fun dx =>
        (List.range room.height).map fun dz => (room.x + dx, room.z + dz)).find?
        (fun p => cells p.1 p.2 == CellType.room &&
          decide (4 ≤ sqDist (cellWorld w h 1 p.1 p.2) spawn)) with
    | some p => some (cellWorld w h 1 p.1 p.2)
    | none => some (cellWorld w h 1 room.centerX room.centerZ)
  | none => some ⟨spawn.x + 2, 1, spawn.z⟩

/-- `LootboxManager.organizeIntoGridSections` (lines 453-483): a 4×4 grid
of sections with `sectionWidth = ⌈w/4⌉`, `sectionHeight = ⌈h/4⌉`; the
`Map`'s 16 keys are created in sx-major order and each section lists its
Room/Floor cells in grid scan order. -/
def organizeIntoGridSections (w h : ℕ) (cells : ℕ → ℕ → CellType) :
    List (List (ℕ × ℕ)) :=
  (List.range 4).flatMap fun sx =>
    (List.range 4).map fun sz =>
      (List.range w).flatMap fun x =>
        (List.range h).filterMap fun z =>
          if (cells x z = .room ∨ cells x z = .floor) ∧
              x / ((w + 3) / 4) = sx ∧ z / ((h + 3) / 4) = sz
          then some (x, z) else none

/-- `LootboxManager.isValidLootboxPosition` (lines 536-568), with each
distance comparison `d < m` (`m ≥ 0`) in its equivalent squared form
`sqDist < m²`: spawn margin 1.5 (9/4), exit margin 3.0 (9), inter-lootbox
spacing 12.0 (144), checked against both the batch's earlier positions and
the ones being placed. -/
def isValidLootboxPosition (candidate : Vec3) (existingPositions newPositions : List Vec3)
    (spawnPosition exitPosition : Option Vec3) : Bool :=
  (match spawnPosition with
    | some s => !decide (sqDist candidate s < 9/4)
    | none => true) &&
  (match exitPosition with
    | some e => !decide (sqDist candidate e < 9)
    | none => true) &&
  ((existingPositions ++ newPositions).all fun p => !decide (sqDist candidate p < 144))

/-- The `while` loop of `distributeAcrossGrid` (lines 502-531): fuel is the
remaining attempt budget (`attempts < maxAttempts = count × 10`); each
attempt reads the current section (round-robin mod the section count),
skips it when empty, otherwise draws a cell (`pick fuel` models that
attempt's `Math.random()` cell index) and accepts its world position
(height y = 1.0) when `isValidLootboxPosition` passes. -/
def distributeLoop (sections : List (List (ℕ × ℕ))) (count : ℕ)
    (existingPositions : List Vec3) (spawn exit : Option Vec3) (w h : ℕ)
    (pick : ℕ → ℕ) : ℕ → ℕ → List Vec3 → List Vec3
  | 0, _, acc => acc
  | fuel + 1, sectionIndex, acc =>
    if count ≤ acc.length then acc
    else
      let sectionCells := sections.getD (sectionIndex % sections.length) []
      if sectionCells.isEmpty then
        distributeLoop sections count existingPositions spawn exit w h pick fuel
          (sectionIndex + 1) acc
      else
        let cell := sectionCells.getD (pick fuel % sectionCells.length) (0, 0)
        let candidate := cellWorld w h 1 cell.1 cell.2
        if isValidLootboxPosition candidate existingPositions acc spawn exit then
          distributeLoop sections count existingPositions spawn exit w h pick fuel
            (sectionIndex + 1) (acc ++ [candidate])
        else
          distributeLoop sections count existingPositions spawn exit w h pick fuel
            (sectionIndex + 1) acc

/-- `LootboxManager.distributeAcrossGrid` (lines 485-534).  The in-place
Fisher-Yates shuffle of the nonempty sections (lines 497-500) is modelled
by quantifying over the order of `sections`; every theorem below holds for
all orders, and concrete instances use the unshuffled order, which
Fisher-Yates produces when each swap draws the current index.  (When no
section has cells and `count > 0` the source indexes with `NaN` and
throws; the claims only concern grids with at least one Room/Floor cell.) -/
def distributeAcrossGrid (sections : List (List (ℕ × ℕ))) (count : ℕ)
    (existingPositions : List Vec3) (spawn exit : Option Vec3) (w h : ℕ)
    (pick : ℕ → ℕ) : List Vec3 :=
  let sectionsWithCells := sections.filter fun s => !s.isEmpty
  distributeLoop sectionsWithCells count existingPositions spawn exit w h pick
    (count * 10) 0 []

/-- `LootboxManager.generateSpawnPositions` (lines 380-413): one
guaranteed start-room slot (when a spawn position exists), then the grid
distribution for the remaining count with the start slot as an existing
position. -/
def generateSpawnPositions (w h : ℕ) (cells : ℕ → ℕ → CellType) (rooms : List Room)
    (spawn exit : Option Vec3) (count : ℕ) (sections : List (List (ℕ × ℕ)))
    (pick : ℕ → ℕ) : List Vec3 :=
  let positions : List Vec3 :=
    match spawn with
    | some s =>
      match findStartRoomPosition s cells rooms w h with
      | some p => [p]
      | none => []
    | none => []
  positions ++ distributeAcrossGrid sections (count - positions.length) positions
    spawn exit w h pick

/-- The position accesses of the `spawnLootboxes` loop (lines 348-372):
iteration `i` reads `spawnPositions[i]` and immediately dereferences it
(`position.distanceTo(...)` inside `selectRarityByDistance` when spawn and
exit are set, then `position.clone()`), so an out-of-range access —
`undefined` in JS — makes the call throw a `TypeError`.  `none` models
that abrupt termination; `some` returns the dereferenced positions. -/
def spawnLootboxesPositions (spawnPositions : List Vec3) (lootboxCount : ℕ) :
    Option (List Vec3) :=
  (List.range lootboxCount).mapM fun i => spawnPositions[i]?

/-- The squared spawn/exit margins an accepted grid position satisfies. -/
def MarginOK (p : Vec3) (spawn exit : Option Vec3) : Prop :=
  (∀ s, spawn = some s → 9/4 ≤ sqDist p s) ∧ (∀ e, exit = some e → 9 ≤ sqDist p e)

theorem isValid_spec (c : Vec3) (ex new : List Vec3) (spawn exit : Option Vec3)
    (h : isValidLootboxPosition c ex new spawn exit = true) :
    MarginOK c spawn exit ∧ ∀ p ∈ ex ++ new, 144 ≤ sqDist c p := by
  unfold isValidLootboxPosition at h
  simp only [Bool.and_eq_true, List.all_eq_true] at h
  obtain ⟨⟨h1, h2⟩, h3⟩ := h
  refine ⟨⟨?_, ?_⟩, ?_⟩
  · intro s hs
    rw [hs] at h1
    simpa [not_lt] using h1
  · intro e he
    rw [he] at h2
    simpa [not_lt] using h2
  · intro p hp
    simpa [not_lt] using h3 p hp

theorem pairwise_of_length_le_one {R : Vec3 → Vec3 → Prop} :
    ∀ (l : List Vec3), l.length ≤ 1 → l.Pairwise R
  | [], _ => List.Pairwise.nil
  | [_], _ => List.pairwise_singleton _ _
  | _ :: _ :: _, h => by simp at h

theorem distributeLoop_margins (sections : List (List (ℕ × ℕ))) (count : ℕ)
    (existing : List Vec3) (spawn exit : Option Vec3) (w h : ℕ) (pick : ℕ → ℕ) :
    ∀ (fuel sIdx : ℕ) (acc : List Vec3),
      (∀ p ∈ acc, MarginOK p spawn exit) →
      (existing ++ acc).Pairwise (fun p q => 144 ≤ sqDist p q) →
      (∀ p ∈ distributeLoop sections count existing spawn exit w h pick fuel sIdx acc,
          MarginOK p spawn exit) ∧
        (existing ++
            distributeLoop sections count existing spawn exit w h pick fuel sIdx
              acc).Pairwise (fun p q => 144 ≤ sqDist p q)
  | 0, _, acc, hm, hp => ⟨hm, hp⟩
  | fuel + 1, sIdx, acc, hm, hp => by
    simp only [distributeLoop]
    split_ifs with hstop hempty hvalid
    · exact ⟨hm, hp⟩
    · exact distributeLoop_margins sections count existing spawn exit w h pick
        fuel (sIdx + 1) acc hm hp
    · obtain ⟨hcm, hcsep⟩ := isValid_spec _ _ _ _ _ hvalid
      refine distributeLoop_margins sections count existing spawn exit w h pick
        fuel (sIdx + 1) _ ?_ ?_
      · intro p hpmem
        rcases List.mem_append.1 hpmem with hpa | hpc
        · exact hm p hpa
        · rw [List.mem_singleton.1 hpc]
          exact hcm
      · rw [← List.append_assoc, List.pairwise_append]
        refine ⟨hp, List.pairwise_singleton _ _, ?_⟩
        intro a ha b hb
        rw [List.mem_singleton.1 hb, sqDist_comm]
        exact hcsep a ha
    · exact distributeLoop_margins sections count existing spawn exit w h pick
        fuel (sIdx + 1) acc hm hp

/-- **C7, amended.** Every position the grid-distribution engine accepts
satisfies the squared margins (distance from spawn ≥ 1.5, from the exit
≥ 3.0), and — provided at most one prior position (the start-room slot) is
handed in — all pairs of distinct positions of the resulting batch,
start-room slot included, are ≥ 12.0 world units apart.  The start-room
slot itself is **not** produced by this engine and is not covered by the
spawn/exit margins (see `lootbox_exit_margin_cex`). -/
theorem lootbox_spacing (sections : List (List (ℕ × ℕ))) (count : ℕ)
    (existing : List Vec3) (spawn exit : Option Vec3) (w h : ℕ) (pick : ℕ → ℕ)
    (hex : existing.length ≤ 1) :
    (∀ p ∈ distributeAcrossGrid sections count existing spawn exit w h pick,
        (∀ s, spawn = some s → (3/2 : ℝ) ≤ Real.sqrt ((sqDist p s : ℚ) : ℝ)) ∧
          ∀ e, exit = some e → (3 : ℝ) ≤ Real.sqrt ((sqDist p e : ℚ) : ℝ)) ∧
      (existing ++ distributeAcrossGrid sections count existing spawn exit w h
          pick).Pairwise (fun p q => (12 : ℝ) ≤ Real.sqrt ((sqDist p q : ℚ) : ℝ)) := by
  have key := distributeLoop_margins (sections.filter fun s => !s.isEmpty) count existing
    spawn exit w h pick (count * 10) 0 [] (by intro p hp; simp at hp)
    (by rw [List.append_nil]; exact pairwise_of_length_le_one existing hex)
  have hsq : ∀ (m : ℝ) (q : ℚ), 0 ≤ m → m ^ 2 ≤ (q : ℝ) →
      m ≤ Real.sqrt ((q : ℚ) : ℝ) := by
    intro m q hm hle
    have hq : (0 : ℝ) ≤ (q : ℝ) := le_trans (by positivity) hle
    exact (Real.le_sqrt hm hq).2 hle
  constructor
  · intro p hp
    have hmarg := key.1 p hp
    constructor
    · intro s hs
      refine hsq (3/2) _ (by norm_num) ?_
      have := hmarg.1 s hs
      calc ((3:ℝ)/2) ^ 2 = ((9/4 : ℚ) : ℝ) := by norm_num
        _ ≤ _ := by exact_mod_cast this
    · intro e he
      refine hsq 3 _ (by norm_num) ?_
      have := hmarg.2 e he
      calc (3:ℝ) ^ 2 = ((9 : ℚ) : ℝ) := by norm_num
        _ ≤ _ := by exact_mod_cast this
  · refine key.2.imp ?_
    intro p q hpq
    refine hsq 12 _ (by norm_num) ?_
    calc (12:ℝ) ^ 2 = ((144 : ℚ) : ℝ) := by norm_num
      _ ≤ _ := by exact_mod_cast hpq

/-- Witness for `lootbox_spacing`: one one-cell section, requesting a
single position, with no prior positions and no spawn/exit set. -/
theorem lootbox_spacing_witness :
    (([] : List Vec3).length ≤ 1) ∧
      ((∀ p ∈ distributeAcrossGrid [[(0, 0)]] 1 [] none none 2 2 (fun _ => 0),
          (∀ s, (none : Option Vec3) = some s →
            (3/2 : ℝ) ≤ Real.sqrt ((sqDist p s : ℚ) : ℝ)) ∧
            ∀ e, (none : Option Vec3) = some e →
              (3 : ℝ) ≤ Real.sqrt ((sqDist p e : ℚ) : ℝ)) ∧
        (([] : List Vec3) ++ distributeAcrossGrid [[(0, 0)]] 1 [] none none 2 2
            (fun _ => 0)).Pairwise
          (fun p q => (12 : ℝ) ≤ Real.sqrt ((sqDist p q : ℚ) : ℝ))) :=
  ⟨by decide, lootbox_spacing [[(0, 0)]] 1 [] none none 2 2 (fun _ => 0) (by decide)⟩

/-- An 18×18 grid whose only room is the 8×8 room at origin (1,1) — a
layout `generateRooms` produces when its first accepted draw is that
rectangle. -/
def c7Cells : ℕ → ℕ → CellType := fun x z =>
  if 1 ≤ x ∧ x ≤ 8 ∧ 1 ≤ z ∧ z ≤ 8 then .room else .wall

def c7Rooms : List Room := [⟨1, 1, 8, 8, 5, 5⟩]

/-- Spawn drawn at room cell (8,8): world `((8−9)·2, 1.6, (8−9)·2)`. -/
def c7Spawn : Vec3 := ⟨-2, 8/5, -2⟩

/-- Exit at room cell (1,1) — the unique farthest room cell from spawn, so
a possible (indeed the top-ranked) `selectExitPoint` outcome. -/
def c7Exit : Vec3 := ⟨-16, 8/5, -16⟩

theorem c7_find :
    findStartRoomPosition c7Spawn c7Cells c7Rooms 18 18 = some ⟨-16, 1, -16⟩ := by
  have hr8 : List.range 8 = [0, 1, 2, 3, 4, 5, 6, 7] := rfl
  norm_num [findStartRoomPosition, c7Spawn, c7Rooms, c7Cells, jsRound, cellWorld, sqDist,
    List.find?, hr8, List.flatMap_cons, List.flatMap_nil]

/-- **C7, counterexample.** The claim "every position in the batch —
including the guaranteed start-room slot — is at least 3.0 units from the
exit position" fails: `findStartRoomPosition` never checks the exit.  With
spawn at room cell (8,8) and the exit at room cell (1,1) (the farthest
room cell from spawn, as the exit-selection bias prefers), the guaranteed
start slot is the world position of cell (1,1) itself — the first room
cell ≥ 2 units from spawn in scan order — and it heads the batch at
Euclidean distance 0.6 < 3.0 from the exit. -/
theorem lootbox_exit_margin_cex :
    (generateSpawnPositions 18 18 c7Cells c7Rooms (some c7Spawn) (some c7Exit) 10
        (organizeIntoGridSections 18 18 c7Cells) fun _ => 0).head? =
      some ⟨-16, 1, -16⟩ ∧
      sqDist ⟨-16, 1, -16⟩ c7Exit < 3 ^ 2 ∧
      Real.sqrt ((sqDist ⟨-16, 1, -16⟩ c7Exit : ℚ) : ℝ) < 3 := by
  refine ⟨?_, by norm_num [sqDist, c7Exit], ?_⟩
  · simp only [generateSpawnPositions, c7_find]
    rfl
  · have h9 : sqDist ⟨-16, 1, -16⟩ c7Exit = 9/25 := by norm_num [sqDist, c7Exit]
    rw [h9]
    have h3 : (3 : ℝ) = Real.sqrt 9 := by
      rw [show (9 : ℝ) = 3 ^ 2 by norm_num, Real.sqrt_sq (by norm_num)]
    rw [h3]
    apply Real.sqrt_lt_sqrt (by positivity)
    norm_num

/-- An 18×18 grid whose only room is a 4×4 room at (1,1) — producible by
`generateRooms` — whose world footprint spans about 8.5 units, far less
than the 12-unit lootbox spacing. -/
def c8Cells : ℕ → ℕ → CellType := fun x z =>
  if 1 ≤ x ∧ x ≤ 4 ∧ 1 ≤ z ∧ z ≤ 4 then .room else .wall

def c8Rooms : List Room := [⟨1, 1, 4, 4, 3, 3⟩]

/-- Spawn at room cell (1,1). -/
def c8Spawn : Vec3 := ⟨-16, 8/5, -16⟩

/-- Exit at room cell (4,4), the farthest room cell from spawn. -/
def c8Exit : Vec3 := ⟨-10, 8/5, -10⟩

/-- The guaranteed start slot: cell (1,2), the first room cell in scan
order at least 2 units from spawn. -/
def c8Slot : Vec3 := ⟨-16, 1, -14⟩

/-- The single nonempty 4×4-grid section of `c8Cells` (all 16 room cells
fall in section (0,0) since `⌈18/4⌉ = 5`), in grid scan order. -/
def c8SectionCells : List (ℕ × ℕ) :=
  [(1, 1), (1, 2), (1, 3), (1, 4),
   (2, 1), (2, 2), (2, 3), (2, 4),
   (3, 1), (3, 2), (3, 3), (3, 4),
   (4, 1), (4, 2), (4, 3), (4, 4)]

theorem c8_find :
    findStartRoomPosition c8Spawn c8Cells c8Rooms 18 18 = some c8Slot := by
  have hr4 : List.range 4 = [0, 1, 2, 3] := rfl
  norm_num [findStartRoomPosition, c8Spawn, c8Rooms, c8Cells, c8Slot, jsRound, cellWorld,
    sqDist, List.find?, hr4, List.flatMap_cons, List.flatMap_nil]

/-- Every attempt of the grid distribution draws cell (1,1) (the constant
pick stream), whose candidate position is 0.6 units from spawn — rejected
by the 1.5-unit spawn margin — so the loop burns its whole budget and
accepts nothing. -/
theorem c8_loop_empty : ∀ (fuel sIdx : ℕ),
    distributeLoop [c8SectionCells] 9 [c8Slot] (some c8Spawn) (some c8Exit) 18 18
      (fun _ => 0) fuel sIdx [] = []
  | 0, _ => rfl
  | fuel + 1, sIdx => by
    have hval : isValidLootboxPosition (cellWorld 18 18 1 1 1) [c8Slot] []
        (some c8Spawn) (some c8Exit) = false := by
      norm_num [isValidLootboxPosition, cellWorld, sqDist, c8Spawn]
    simp only [distributeLoop]
    rw [if_neg (show ¬ (9 ≤ ([] : List Vec3).length) from by norm_num)]
    rw [show sIdx % ([c8SectionCells] : List (List (ℕ × ℕ))).length = 0 from
      Nat.mod_one sIdx]
    rw [List.getD_cons_zero]
    rw [if_neg (show ¬ (c8SectionCells.isEmpty = true) from by decide)]
    rw [show c8SectionCells.getD ((fun _ : ℕ => 0) fuel % c8SectionCells.length) (0, 0) =
      (1, 1) from rfl]
    rw [if_neg (show ¬ (isValidLootboxPosition (cellWorld 18 18 1 (1, 1).1 (1, 1).2)
        [c8Slot] [] (some c8Spawn) (some c8Exit) = true) from by
      rw [show ((1, 1) : ℕ × ℕ).1 = 1 from rfl, show ((1, 1) : ℕ × ℕ).2 = 1 from rfl, hval]
      exact Bool.false_ne_true)]
    exact c8_loop_empty fuel (sIdx + 1)

theorem c8_distribute :
    distributeAcrossGrid (organizeIntoGridSections 18 18 c8Cells) 9 [c8Slot]
      (some c8Spawn) (some c8Exit) 18 18 (fun _ => 0) = [] := by
  have hfilter : (organizeIntoGridSections 18 18 c8Cells).filter (fun s => !s.isEmpty) =
      [c8SectionCells] := by decide
  simp only [distributeAcrossGrid, hfilter]
  exact c8_loop_empty 90 0

/-- **C8 (code bug).** First half of the claim, true of the engine: the
grid distribution exhausts its `count × 10` attempt cap and returns fewer
than `count` positions (here none at all — a 4×4 single room cannot
satisfy the 12-unit spacing), so the batch holds only the guaranteed start
slot, 1 position instead of the requested 10.  Second half, false of the
caller: `spawnLootboxes` iterates `i = 0 … lootboxCount−1` over
`spawnPositions[i]` and dereferences each entry, so the `undefined` at
`i = 1` makes it throw a `TypeError` (`none` in the model) instead of
tolerating the under-filled batch. -/
theorem spawnLootboxes_underfill_throws :
    generateSpawnPositions 18 18 c8Cells c8Rooms (some c8Spawn) (some c8Exit) 10
        (organizeIntoGridSections 18 18 c8Cells) (fun _ => 0) = [c8Slot] ∧
      spawnLootboxesPositions [c8Slot] 10 = none := by
  constructor
  · simp only [generateSpawnPositions, c8_find, List.length_cons, List.length_nil]
    norm_num [c8_distribute]
  · rfl

end ApocalypseRun
